import Mathlib

/-!
# Verification of the fluent-ci deno client core

Shallow embedding of `src/client.ts` (and its older duplicate
`src/unnamed/part_000`): the lazy query-construction engine of the
fluentci deno client.  Query trees are lists of operation nodes,
chainable objects are structures holding a tree plus connection
context, terminal methods are functions threading an explicit network
oracle and a trace of issued wire requests.  The JavaScript array
spread `[...this._queryTree, node]` is additionally modelled at the
heap level (a store of arrays addressed by reference) so that the
"never mutates the parent's array in place" claims are meaningful.
-/

/-- Argument values appearing in an operation node's `args` record:
scalars, arrays and nested objects, mirroring the `unknown` values the
generated methods put into `args` (strings, numbers, booleans, string
arrays, and the sidecar `__metadata` object). -/
inductive Val where
  | str : String → Val
  | num : Int → Val
  | bool : Bool → Val
  | list : List Val → Val
  | obj : List (String × Val) → Val
deriving Repr

/-- One operation node, from `src/client.ts`:
`export type QueryTree = { operation: string; args?: Record<string, unknown> }`.
The source calls the *node* type `QueryTree`; a tree is a `QueryTree[]`,
i.e. a `List QueryTree` here.  An args record is embedded as the ordered
list of its key/value entries. -/
structure QueryTree where
  operation : String
  args : Option (List (String × Val)) := none
deriving Repr

/-- A trace of wire requests: each entry is the query tree compiled and
sent by one `computeQuery` call. -/
abbrev Trace := List (List QueryTree)

/-! ## btoa / base64

`Authorization: "Basic " + btoa(sessionToken + ":")` — we embed the
standard `btoa` base64 encoding of the Latin-1 code points of the
string. -/

/-- The base64 alphabet, indexed 0..63. -/
def base64Alphabet : List Char :=
  [ 'A','B','C','D','E','F','G','H','I','J','K','L','M','N','O','P',
    'Q','R','S','T','U','V','W','X','Y','Z',
    'a','b','c','d','e','f','g','h','i','j','k','l','m','n','o','p',
    'q','r','s','t','u','v','w','x','y','z',
    '0','1','2','3','4','5','6','7','8','9','+','/' ]

/-- One base64 digit. -/
def b64digit (n : Nat) : Char := base64Alphabet.getD n 'A'

/-- Base64-encode a list of byte values, with `=` padding. -/
def base64Encode : List Nat → List Char
  | [] => []
  | [a] =>
      [b64digit (a / 4), b64digit (a % 4 * 16), '=', '=']
  | [a, b] =>
      [b64digit (a / 4), b64digit (a % 4 * 16 + b / 16),
       b64digit (b % 16 * 4), '=']
  | a :: b :: c :: rest =>
      b64digit (a / 4) :: b64digit (a % 4 * 16 + b / 16) ::
      b64digit (b % 16 * 4 + c / 64) :: b64digit (c % 64) ::
      base64Encode rest

/-- `btoa`: base64 of the code points of the string (the inputs used by
the client are ASCII). -/
def btoa (s : String) : String :=
  String.mk (base64Encode (s.toList.map Char.toNat))

/-! ## Scheme selection

```
const scheme =
  this.clientHost.startsWith("localhost") ||
  this.clientHost.split(":")[0].match(/(?:[0-9]{1,3}\.){3}[0-9]{1,3}/)
    ? "http" : "https";
```

`match` with an unanchored regex succeeds iff some substring matches
`(?:[0-9]{1,3}\.){3}[0-9]{1,3}`.  We embed the matcher directly: at
each suffix of the input, try to consume one to three digits, a dot,
three times over, then one to three digits; existence of a match is
insensitive to greediness, so the set-of-rests formulation below is
faithful to the regex semantics. -/

/-- All rests of `cs` obtained by consuming between 1 and `n` leading
decimal digits. -/
def chompDigits : Nat → List Char → List (List Char)
  | 0, _ => []
  | _ + 1, [] => []
  | n + 1, c :: rest =>
      if c.isDigit then rest :: chompDigits n rest else []

/-- Consume a literal dot. -/
def chompDot : List Char → Option (List Char)
  | c :: rest => if c = '.' then some rest else none
  | [] => none

/-- Does `(?:[0-9]{1,3}\.){3}[0-9]{1,3}` match at the start of `cs`? -/
def quadAt (cs : List Char) : Bool :=
  (chompDigits 3 cs).any fun r1 =>
    match chompDot r1 with
    | none => false
    | some r1' =>
      (chompDigits 3 r1').any fun r2 =>
        match chompDot r2 with
        | none => false
        | some r2' =>
          (chompDigits 3 r2').any fun r3 =>
            match chompDot r3 with
            | none => false
            | some r3' => (chompDigits 3 r3').any fun _ => true

/-- Unanchored `String.prototype.match` against the dotted-quad pattern:
true iff the pattern matches at some position. -/
def quadSearch (cs : List Char) : Bool :=
  cs.tails.any quadAt

/-- `this.clientHost.split(":")[0]`: the characters before the first
colon (the whole string when there is no colon). -/
def beforeColon (s : String) : List Char :=
  s.toList.takeWhile (fun c => c ≠ ':')

/-- `String.prototype.startsWith`, on the underlying character lists. -/
def strStartsWith : List Char → List Char → Bool
  | _, [] => true
  | [], _ :: _ => false
  | c :: cs, p :: ps => c == p && strStartsWith cs ps

/-- The scheme chosen by the `BaseClient` constructor for a given
(already defaulted) client host:
`startsWith("localhost") || split(":")[0].match(/(?:[0-9]{1,3}\.){3}[0-9]{1,3}/) ? "http" : "https"`. -/
def schemeFor (host : String) : String :=
  if strStartsWith host.toList "localhost".toList ||
      quadSearch (beforeColon host)
  then "http" else "https"

/-! ## BaseClient construction

```
constructor({ queryTree, host, sessionToken }: ClientConfig = {}) {
  this._queryTree = queryTree || [];
  this.clientHost = host || "127.0.0.1:8080";
  this.sessionToken = sessionToken || "";
  const scheme = ...;
  const url = Deno.env.has("FLUENTCI_SESSION_ID")
    ? `${scheme}://${this.clientHost}/query?id=${Deno.env.get("FLUENTCI_SESSION_ID")}`
    : `${scheme}://${this.clientHost}/query`;
  this.client = new GraphQLClient(url, {
    headers: {
      Authorization: "Basic " + btoa(sessionToken + ":"),
      "X-FluentCI-Session-ID": Deno.env.get("FLUENTCI_SESSION_ID") || "",
    },
  });
}
```

The ambient `Deno.env` lookup of `FLUENTCI_SESSION_ID` is threaded as
an explicit `envSession : Option String` parameter.  Note that the
`Authorization` header uses the raw constructor parameter
`sessionToken` (which JavaScript coerces to the string `"undefined"`
when absent), not the defaulted `this.sessionToken`. -/

/-- JavaScript string coercion of an optional string used in string
concatenation: an absent value concatenates as `"undefined"`. -/
def jsCoerceStr : Option String → String
  | some s => s
  | none => "undefined"

/-- JavaScript `x || d` on an optional string: `undefined` and the empty
string are falsy, so both fall back to the default. -/
def jsOrStr (x : Option String) (d : String) : String :=
  match x with
  | some s => if s = "" then d else s
  | none => d

/-- The configuration of the transport built by `new GraphQLClient(url,
{headers})`: the endpoint URL and the header object, embedded as the
ordered list of its entries. -/
structure GraphQLClientCfg where
  url : String
  headers : List (String × String)
deriving Repr, DecidableEq

/-- The state of a `BaseClient` after construction: the query tree, the
defaulted host and session token, and the transport configuration. -/
structure BaseClientState where
  _queryTree : List QueryTree
  clientHost : String
  sessionToken : String
  client : GraphQLClientCfg
deriving Repr

/-- The `BaseClient` constructor.  `queryTree`, `host`, `sessionToken`
are the (optional) `ClientConfig` fields, `envSession` is the ambient
`Deno.env` value of `FLUENTCI_SESSION_ID`. -/
def mkBaseClient (queryTree : Option (List QueryTree)) (host : Option String)
    (sessionToken : Option String) (envSession : Option String) :
    BaseClientState :=
  let clientHost := jsOrStr host "127.0.0.1:8080"
  let scheme := schemeFor clientHost
  let url :=
    match envSession with
    | some v => scheme ++ "://" ++ clientHost ++ "/query?id=" ++ v
    | none => scheme ++ "://" ++ clientHost ++ "/query"
  { _queryTree := queryTree.getD []
    clientHost := clientHost
    sessionToken := jsOrStr sessionToken ""
    client :=
      { url := url
        headers :=
          [ ("Authorization", "Basic " ++ btoa (jsCoerceStr sessionToken ++ ":")),
            ("X-FluentCI-Session-ID", envSession.getD "") ] } }

/-! ## Chainable objects

Each generated class extends `BaseClient` with optional pre-populated
scalar fields, set only by the internal constructor. -/

/-- `Container` (src/client.ts): base state plus the fifteen optional
cached scalars of its internal constructor. -/
structure Container where
  base : BaseClientState
  _id : Option String := none
  _endpoint : Option String := none
  _envVariable : Option String := none
  _export : Option Bool := none
  _hostname : Option String := none
  _imageRef : Option String := none
  _label : Option String := none
  _platform : Option String := none
  _publish : Option String := none
  _shellEndpoint : Option String := none
  _stderr : Option String := none
  _stdout : Option String := none
  _sync : Option String := none
  _user : Option String := none
  _workdir : Option String := none
deriving Repr

/-- `Directory` (src/client.ts): base state plus its cached scalars
(`_export` is the only one the claims touch; the others are kept). -/
structure Directory where
  base : BaseClientState
  _export : Option Bool := none
  _id : Option String := none
  _sync : Option String := none
deriving Repr

/-- `File` (src/client.ts): base state plus the cached scalars of its
internal constructor. -/
structure File where
  base : BaseClientState
  _id : Option String := none
  _contents : Option String := none
  _export : Option Bool := none
  _size : Option Int := none
  _sync : Option String := none
deriving Repr

/-- `EnvVariable` (src/client.ts): base state plus cached `_name` and
`_value`. -/
structure EnvVariable where
  base : BaseClientState
  _name : Option String := none
  _value : Option String := none
deriving Repr

/-- `Port` (src/client.ts): base state plus cached `_description`,
`_port` and `_protocol`. -/
structure Port where
  base : BaseClientState
  _description : Option String := none
  _port : Option Int := none
  _protocol : Option String := none
deriving Repr

/-! JavaScript truthiness of the cached fields tested by
`if (this._field) { return this._field; }`: `undefined`, `""`, `0` and
`false` are falsy. -/

/-- Truthiness of an optional string field. -/
def truthyStr : Option String → Bool
  | some s => s ≠ ""
  | none => false

/-- Truthiness of an optional boolean field. -/
def truthyBool : Option Bool → Bool
  | some b => b
  | none => false

/-- Truthiness of an optional number field. -/
def truthyNum : Option Int → Bool
  | some n => n ≠ 0
  | none => false

/-! ## Deferred (lazy) methods

Each deferred method builds
`new C({ queryTree: [...this._queryTree, { operation, args }], host: this.clientHost, sessionToken: this.sessionToken })`:
the parent's tree is copied (spread) with one node appended, the
connection context is passed through, and every cached scalar of the
child is left `undefined`.  The child's `BaseClient` constructor reads
the ambient `FLUENTCI_SESSION_ID`, threaded here as `envSession`. -/

/-- `Container.from(address)`: appends `{operation: "from", args: {address}}`.
(`from` is a Lean keyword, hence the trailing underscore.) -/
def Container.from_ (c : Container) (address : String)
    (envSession : Option String) : Container :=
  { base := mkBaseClient
      (some (c.base._queryTree ++
        [{ operation := "from", args := some [("address", .str address)] }]))
      (some c.base.clientHost) (some c.base.sessionToken) envSession }

/-- `Container.withExec(args, opts)`: appends
`{operation: "withExec", args: {args, ...opts}}`.  The optional `opts`
object is embedded as the ordered list `optsEntries` of its defined
entries, spread after the `args` key exactly as `{ args, ...opts }`
does. -/
def Container.withExec (c : Container) (args : List String)
    (optsEntries : List (String × Val)) (envSession : Option String) :
    Container :=
  { base := mkBaseClient
      (some (c.base._queryTree ++
        [{ operation := "withExec",
           args := some (("args", .list (args.map .str)) :: optsEntries) }]))
      (some c.base.clientHost) (some c.base.sessionToken) envSession }

/-- `Container.withWorkdir(path)`: appends
`{operation: "withWorkdir", args: {path}}`. -/
def Container.withWorkdir (c : Container) (path : String)
    (envSession : Option String) : Container :=
  { base := mkBaseClient
      (some (c.base._queryTree ++
        [{ operation := "withWorkdir", args := some [("path", .str path)] }]))
      (some c.base.clientHost) (some c.base.sessionToken) envSession }

/-- `Container.directory(path)`: appends
`{operation: "directory", args: {path}}` and wraps the result as a
`Directory`. -/
def Container.directory (c : Container) (path : String)
    (envSession : Option String) : Directory :=
  { base := mkBaseClient
      (some (c.base._queryTree ++
        [{ operation := "directory", args := some [("path", .str path)] }]))
      (some c.base.clientHost) (some c.base.sessionToken) envSession }

/-- `Container.file(path)`: appends `{operation: "file", args: {path}}`
and wraps the result as a `File`. -/
def Container.file (c : Container) (path : String)
    (envSession : Option String) : File :=
  { base := mkBaseClient
      (some (c.base._queryTree ++
        [{ operation := "file", args := some [("path", .str path)] }]))
      (some c.base.clientHost) (some c.base.sessionToken) envSession }

/-! ## Resolution

`computeQuery` lives in `src/utils.ts`, which is not part of the given
sources (only its call sites in `client.ts` are). -/

/-- Modelled from the spec: `computeQuery` of the missing `src/utils.ts`
(§4.2 Resolver/Compiler).  It compiles the given query tree, issues
exactly one wire request per resolution over the given transport
(§4.2 Step 3), and returns the value extracted from the response
(§4.2 Step 4).  The remote engine is abstracted as the oracle `net`
mapping the sent tree to the extracted value; the request itself is
recorded on the trace. -/
def computeQuery {α : Type} (q : List QueryTree) (_client : GraphQLClientCfg)
    (net : List QueryTree → α) (trace : Trace) : α × Trace :=
  (net q, trace ++ [q])

/-! ## Terminal methods

Each terminal accessor first tests its cached field for JavaScript
truthiness (`if (this._field) { return this._field; }`) and otherwise
awaits `computeQuery([...this._queryTree, node], this.client)`.  The
oracle and trace are threaded explicitly. -/

/-- `Container.id()`. -/
def Container.id (c : Container) (net : List QueryTree → String)
    (trace : Trace) : String × Trace :=
  if truthyStr c._id then (c._id.getD "", trace)
  else computeQuery (c.base._queryTree ++ [{ operation := "id" }])
    c.base.client net trace

/-- The `Metadata` sidecar built by `Container.export` and
`Container.publish`:
`{ forcedCompression: { is_enum: true }, mediaTypes: { is_enum: true } }`. -/
def exportMetadata : Val :=
  .obj [ ("forcedCompression", .obj [("is_enum", .bool true)]),
         ("mediaTypes", .obj [("is_enum", .bool true)]) ]

/-- `Container.export(path, opts)`: appends
`{operation: "export", args: {path, ...opts, __metadata: metadata}}`
unless the cached `_export` is truthy.  `optsEntries` is the spread of
the defined entries of `opts`.  (`export` is a Lean keyword, hence the
trailing underscore.) -/
def Container.export_ (c : Container) (path : String)
    (optsEntries : List (String × Val)) (net : List QueryTree → Bool)
    (trace : Trace) : Bool × Trace :=
  if truthyBool c._export then (c._export.getD false, trace)
  else computeQuery
    (c.base._queryTree ++
      [{ operation := "export",
         args := some (("path", .str path) :: optsEntries ++
           [("__metadata", exportMetadata)]) }])
    c.base.client net trace

/-- `Container.publish(address, opts)`: appends
`{operation: "publish", args: {address, ...opts, __metadata: metadata}}`
unless the cached `_publish` is truthy. -/
def Container.publish (c : Container) (address : String)
    (optsEntries : List (String × Val)) (net : List QueryTree → String)
    (trace : Trace) : String × Trace :=
  if truthyStr c._publish then (c._publish.getD "", trace)
  else computeQuery
    (c.base._queryTree ++
      [{ operation := "publish",
         args := some (("address", .str address) :: optsEntries ++
           [("__metadata", exportMetadata)]) }])
    c.base.client net trace

/-- `Container.envVariables()`: sends
`[...this._queryTree, {operation: "envVariables"}, {operation: "name value"}]`
and lifts each `{name, value}` record of the response into an
`EnvVariable` built from `{queryTree: this.queryTree, host: this.clientHost,
sessionToken: this.sessionToken}` with `_name` and `_value`
pre-populated.  The oracle returns the array of records as
name/value pairs. -/
def Container.envVariables (c : Container)
    (net : List QueryTree → List (String × String))
    (envSession : Option String) (trace : Trace) :
    List EnvVariable × Trace :=
  let r := computeQuery
    (c.base._queryTree ++
      [{ operation := "envVariables" }, { operation := "name value" }])
    c.base.client net trace
  (r.1.map fun rec =>
    { base := mkBaseClient (some c.base._queryTree) (some c.base.clientHost)
        (some c.base.sessionToken) envSession
      _name := some rec.1
      _value := some rec.2 },
   r.2)

/-- `Container.exposedPorts()`: sends
`[...this._queryTree, {operation: "exposedPorts"}, {operation: "description port protocol"}]`
and lifts each `{description, port, protocol}` record into a `Port`
built from the parent's `queryTree`, host and session token with the
three scalars pre-populated. -/
def Container.exposedPorts (c : Container)
    (net : List QueryTree → List (String × Int × String))
    (envSession : Option String) (trace : Trace) : List Port × Trace :=
  let r := computeQuery
    (c.base._queryTree ++
      [{ operation := "exposedPorts" },
       { operation := "description port protocol" }])
    c.base.client net trace
  (r.1.map fun rec =>
    { base := mkBaseClient (some c.base._queryTree) (some c.base.clientHost)
        (some c.base.sessionToken) envSession
      _description := some rec.1
      _port := some rec.2.1
      _protocol := some rec.2.2 },
   r.2)

/-- `EnvVariable.name()`. -/
def EnvVariable.name (e : EnvVariable) (net : List QueryTree → String)
    (trace : Trace) : String × Trace :=
  if truthyStr e._name then (e._name.getD "", trace)
  else computeQuery (e.base._queryTree ++ [{ operation := "name" }])
    e.base.client net trace

/-- `EnvVariable.value()`. -/
def EnvVariable.value (e : EnvVariable) (net : List QueryTree → String)
    (trace : Trace) : String × Trace :=
  if truthyStr e._value then (e._value.getD "", trace)
  else computeQuery (e.base._queryTree ++ [{ operation := "value" }])
    e.base.client net trace

/-- `File.size()`. -/
def File.size (f : File) (net : List QueryTree → Int)
    (trace : Trace) : Int × Trace :=
  if truthyNum f._size then (f._size.getD 0, trace)
  else computeQuery (f.base._queryTree ++ [{ operation := "size" }])
    f.base.client net trace

/-! ## Heap-level model of the spread append

`[...this._queryTree, node]` evaluates, in JavaScript, by allocating a
*fresh* array holding the parent array's elements followed by `node`;
the parent's array object is untouched.  To make the "never mutated in
place" claims meaningful we model the array heap explicitly: a store of
arrays addressed by index, chainable objects holding a reference into
it. -/

/-- The array heap: cell `i` holds the `QueryTree[]` array of reference
`i`. -/
abbrev Store := List (List QueryTree)

/-- A chainable object at the heap level: a reference to its tree array
plus the connection context. -/
structure HeapClient where
  treeRef : Nat
  clientHost : String
  sessionToken : String
deriving Repr

/-- Evaluation of `[...this._queryTree, node]` followed by storing the
result in the new object: allocates a fresh array cell containing the
parent array's elements plus `node`, and returns the new store and the
fresh reference.  Existing cells are not written. -/
def spreadPush (store : Store) (ref : Nat) (node : QueryTree) :
    Store × Nat :=
  (store ++ [store.getD ref [] ++ [node]], store.length)

/-- Heap-level `Container.from(address)`. -/
def HeapClient.from_ (store : Store) (c : HeapClient) (address : String) :
    Store × HeapClient :=
  let r := spreadPush store c.treeRef
    { operation := "from", args := some [("address", .str address)] }
  (r.1, { treeRef := r.2, clientHost := c.clientHost,
          sessionToken := c.sessionToken })

/-- Heap-level `Container.withExec(args, opts)`. -/
def HeapClient.withExec (store : Store) (c : HeapClient)
    (args : List String) (optsEntries : List (String × Val)) :
    Store × HeapClient :=
  let r := spreadPush store c.treeRef
    { operation := "withExec",
      args := some (("args", .list (args.map .str)) :: optsEntries) }
  (r.1, { treeRef := r.2, clientHost := c.clientHost,
          sessionToken := c.sessionToken })

/-- Heap-level `Container.withWorkdir(path)`. -/
def HeapClient.withWorkdir (store : Store) (c : HeapClient)
    (path : String) : Store × HeapClient :=
  let r := spreadPush store c.treeRef
    { operation := "withWorkdir", args := some [("path", .str path)] }
  (r.1, { treeRef := r.2, clientHost := c.clientHost,
          sessionToken := c.sessionToken })

/-! ## Node construction (Query Tree Builder) -/

/-- The construction-time failure kind of the Query Tree Builder. -/
inductive QueryBuildError where
  | invalidOperation : QueryBuildError
deriving Repr, DecidableEq

/-- Modelled from the spec: the generic `append(operation, args)` of the
Query Tree Builder (§4.1) together with its construction-time
validation, which lives in the repository outside the given `src/`
sources (`src/utils.ts` is absent; the inlined appends in `client.ts`
all use literal non-empty operation names).  Per §4.1 and §7, an
empty or undefined operation name fails synchronously with the
`InvalidOperation` condition at construction time; otherwise exactly
one node is appended to a copy of the parent tree.  The trace is
threaded to express that construction never issues a wire request. -/
def append (tree : List QueryTree) (operation : Option String)
    (args : Option (List (String × Val))) (trace : Trace) :
    Except QueryBuildError (List QueryTree) × Trace :=
  match operation with
  | none => (.error .invalidOperation, trace)
  | some op =>
      if op = "" then (.error .invalidOperation, trace)
      else (.ok (tree ++ [{ operation := op, args := args }]), trace)

/-! ## Claim-side predicates for the scheme-selection claim -/

/-- Split a character list on dots. -/
def splitDots : List Char → List (List Char)
  | [] => [[]]
  | c :: rest =>
      if c = '.' then [] :: splitDots rest
      else
        match splitDots rest with
        | g :: gs => (c :: g) :: gs
        | [] => [[c]]

/-- Decimal value of a digit run. -/
def digitsVal (ds : List Char) : Nat :=
  ds.foldl (fun acc c => acc * 10 + (c.toNat - '0'.toNat)) 0

/-- A dotted-quad IPv4 literal as the claim words it: exactly four
dot-separated groups, each one to three decimal digits with value at
most 255. -/
def isIPv4Literal (s : String) : Bool :=
  let groups := splitDots s.toList
  groups.length == 4 && groups.all fun g =>
    !g.isEmpty && g.length ≤ 3 && g.all Char.isDigit && digitsVal g ≤ 255

/-- A run of one to three decimal digits. -/
def DigitRun (d : List Char) : Prop :=
  d ≠ [] ∧ d.length ≤ 3 ∧ ∀ c ∈ d, c.isDigit = true

/-- The dotted-quad pattern `(?:[0-9]{1,3}\.){3}[0-9]{1,3}` matches at
the start of `cs`, stated as an explicit decomposition. -/
def QuadAtStart (cs : List Char) : Prop :=
  ∃ d1 d2 d3 d4 post, DigitRun d1 ∧ DigitRun d2 ∧ DigitRun d3 ∧
    DigitRun d4 ∧
    cs = d1 ++ '.' :: (d2 ++ '.' :: (d3 ++ '.' :: (d4 ++ post)))

/-- The dotted-quad pattern matches somewhere inside `cs` (the
unanchored-search semantics), stated as an explicit decomposition. -/
def ContainsQuad (cs : List Char) : Prop :=
  ∃ pre rest, cs = pre ++ rest ∧ QuadAtStart rest

/-- Characterization of `chompDigits`: the rests it returns are exactly
those obtained by splitting off a nonempty run of at most `n` digits. -/
theorem mem_chompDigits (n : Nat) :
    ∀ cs r, r ∈ chompDigits n cs ↔
      ∃ d, d ≠ [] ∧ d.length ≤ n ∧ (∀ c ∈ d, c.isDigit = true) ∧
        cs = d ++ r := by
  induction n with
  | zero =>
      intro cs r
      simp only [chompDigits, List.not_mem_nil, false_iff]
      rintro ⟨d, hne, hlen, -, -⟩
      exact hne (List.eq_nil_of_length_eq_zero (Nat.le_zero.mp hlen))
  | succ n ih =>
      intro cs r
      cases cs with
      | nil =>
          simp only [chompDigits, List.not_mem_nil, false_iff]
          rintro ⟨d, hne, -, -, habs⟩
          exact hne (List.append_eq_nil.mp habs.symm).1
      | cons c rest =>
          simp only [chompDigits]
          by_cases hc : c.isDigit = true
          · rw [if_pos hc]
            simp only [List.mem_cons]
            constructor
            · rintro (rfl | hr)
              · refine ⟨[c], by simp, by simp, ?_, rfl⟩
                intro x hx
                rcases List.mem_singleton.mp hx with rfl
                exact hc
              · obtain ⟨d, hne, hlen, hdig, rfl⟩ := (ih rest r).mp hr
                refine ⟨c :: d, by simp, by
                    simpa using Nat.succ_le_succ hlen, ?_, rfl⟩
                intro x hx
                rcases List.mem_cons.mp hx with rfl | hx
                · exact hc
                · exact hdig x hx
            · rintro ⟨d, hne, hlen, hdig, heq⟩
              cases d with
              | nil => exact absurd rfl hne
              | cons d0 dtl =>
                  obtain ⟨rfl, rfl⟩ : d0 = c ∧ rest = dtl ++ r := by
                    have h' := heq
                    simp only [List.cons_append, List.cons.injEq] at h'
                    exact ⟨h'.1.symm, h'.2⟩
                  cases dtl with
                  | nil => exact Or.inl (by simp)
                  | cons e etl =>
                      refine Or.inr ((ih ((e :: etl) ++ r) r).mpr
                        ⟨e :: etl, by simp, ?_, ?_, rfl⟩)
                      · simpa using Nat.le_of_succ_le_succ hlen
                      · intro x hx
                        exact hdig x (List.mem_cons_of_mem _ hx)
          · rw [if_neg hc]
            simp only [List.not_mem_nil, false_iff]
            rintro ⟨d, hne, hlen, hdig, heq⟩
            cases d with
            | nil => exact absurd rfl hne
            | cons d0 dtl =>
                have hd0 : d0 = c := by
                  simp only [List.cons_append, List.cons.injEq] at heq
                  exact heq.1.symm
                exact hc (hd0 ▸ hdig d0 (by simp))

/-- `chompDot` succeeds exactly on lists starting with a dot. -/
theorem chompDot_eq_some (l r : List Char) :
    chompDot l = some r ↔ l = '.' :: r := by
  cases l with
  | nil => simp [chompDot]
  | cons c rest =>
      by_cases hc : c = '.'
      · subst hc
        simp [chompDot]
      · simp [chompDot, hc]

/-- The anchored matcher is sound and complete for the dotted-quad
pattern. -/
theorem quadAt_iff (cs : List Char) : quadAt cs = true ↔ QuadAtStart cs := by
  constructor
  · intro h
    rw [quadAt, List.any_eq_true] at h
    obtain ⟨r1, hr1, h⟩ := h
    obtain ⟨d1, hd1ne, hd1len, hd1dig, rfl⟩ := (mem_chompDigits 3 _ r1).mp hr1
    cases hdot1 : chompDot r1 with
    | none => rw [hdot1] at h; exact absurd h (by simp)
    | some r1' =>
        rw [hdot1] at h
        obtain rfl := (chompDot_eq_some r1 r1').mp hdot1
        rw [List.any_eq_true] at h
        obtain ⟨r2, hr2, h⟩ := h
        obtain ⟨d2, hd2ne, hd2len, hd2dig, rfl⟩ :=
          (mem_chompDigits 3 _ r2).mp hr2
        cases hdot2 : chompDot r2 with
        | none => rw [hdot2] at h; exact absurd h (by simp)
        | some r2' =>
            rw [hdot2] at h
            obtain rfl := (chompDot_eq_some r2 r2').mp hdot2
            rw [List.any_eq_true] at h
            obtain ⟨r3, hr3, h⟩ := h
            obtain ⟨d3, hd3ne, hd3len, hd3dig, rfl⟩ :=
              (mem_chompDigits 3 _ r3).mp hr3
            cases hdot3 : chompDot r3 with
            | none => rw [hdot3] at h; exact absurd h (by simp)
            | some r3' =>
                rw [hdot3] at h
                obtain rfl := (chompDot_eq_some r3 r3').mp hdot3
                rw [List.any_eq_true] at h
                obtain ⟨r4, hr4, -⟩ := h
                obtain ⟨d4, hd4ne, hd4len, hd4dig, rfl⟩ :=
                  (mem_chompDigits 3 _ r4).mp hr4
                exact ⟨d1, d2, d3, d4, r4,
                  ⟨hd1ne, hd1len, hd1dig⟩, ⟨hd2ne, hd2len, hd2dig⟩,
                  ⟨hd3ne, hd3len, hd3dig⟩, ⟨hd4ne, hd4len, hd4dig⟩, rfl⟩
  · rintro ⟨d1, d2, d3, d4, post, ⟨h1ne, h1len, h1dig⟩,
      ⟨h2ne, h2len, h2dig⟩, ⟨h3ne, h3len, h3dig⟩, ⟨h4ne, h4len, h4dig⟩, rfl⟩
    rw [quadAt, List.any_eq_true]
    refine ⟨'.' :: (d2 ++ '.' :: (d3 ++ '.' :: (d4 ++ post))),
      (mem_chompDigits 3 _ _).mpr ⟨d1, h1ne, h1len, h1dig, rfl⟩, ?_⟩
    rw [(chompDot_eq_some _ _).mpr rfl]
    rw [List.any_eq_true]
    refine ⟨'.' :: (d3 ++ '.' :: (d4 ++ post)),
      (mem_chompDigits 3 _ _).mpr ⟨d2, h2ne, h2len, h2dig, rfl⟩, ?_⟩
    rw [(chompDot_eq_some _ _).mpr rfl]
    rw [List.any_eq_true]
    refine ⟨'.' :: (d4 ++ post),
      (mem_chompDigits 3 _ _).mpr ⟨d3, h3ne, h3len, h3dig, rfl⟩, ?_⟩
    rw [(chompDot_eq_some _ _).mpr rfl]
    rw [List.any_eq_true]
    exact ⟨post, (mem_chompDigits 3 _ _).mpr ⟨d4, h4ne, h4len, h4dig, rfl⟩,
      rfl⟩

/-- The unanchored search is sound and complete: it succeeds exactly
when some decomposition of the input exhibits the dotted-quad
pattern. -/
theorem quadSearch_iff (cs : List Char) :
    quadSearch cs = true ↔ ContainsQuad cs := by
  rw [quadSearch, List.any_eq_true]
  constructor
  · rintro ⟨t, ht, hq⟩
    obtain ⟨pre, rfl⟩ := (List.mem_tails _ _).mp ht
    exact ⟨pre, t, rfl, (quadAt_iff t).mp hq⟩
  · rintro ⟨pre, rest, rfl, hq⟩
    exact ⟨rest, (List.mem_tails _ _).mpr ⟨pre, rfl⟩,
      (quadAt_iff rest).mpr hq⟩

/-! ## Frame properties of the heap-level append -/

/-- The spread-append allocates: every existing cell is preserved, the
fresh cell holds the parent array plus the node, and the fresh
reference differs from the (valid) parent reference. -/
theorem spreadPush_frame (store : Store) (ref : Nat) (node : QueryTree)
    (h : ref < store.length) :
    (spreadPush store ref node).1.take store.length = store ∧
    (spreadPush store ref node).1.getD (spreadPush store ref node).2 [] =
      store.getD ref [] ++ [node] ∧
    (spreadPush store ref node).2 ≠ ref := by
  refine ⟨List.take_left _ _, ?_, Nat.ne_of_gt h⟩
  show (store ++ [store.getD ref [] ++ [node]]).getD store.length [] = _
  rw [List.getD_append_right _ _ _ _ (Nat.le_refl _), Nat.sub_self]
  rfl

/-- Reading a valid cell after a spread-append gives the old value. -/
theorem spreadPush_getD_old (store : Store) (ref : Nat) (node : QueryTree)
    (i : Nat) (h : i < store.length) :
    (spreadPush store ref node).1.getD i [] = store.getD i [] :=
  List.getD_append _ _ _ _ h

/-- C1: for each deferred call (`Container.from`, `Container.withExec`,
`Container.withWorkdir`) producing B from parent A, the heap-level
evaluation of `[...this._queryTree, node]` leaves every existing array
cell — in particular A's tree — unchanged (same length, same
contents), B's tree equals A's tree with exactly one new operation
node appended at the end, and B's tree lives in a fresh cell distinct
from A's, so the parent's tree array is never mutated in place. -/
theorem C1_deferred_append_frame (store : Store) (c : HeapClient)
    (address path : String) (args : List String)
    (opts : List (String × Val)) (h : c.treeRef < store.length) :
    ((HeapClient.from_ store c address).1.take store.length = store ∧
      (HeapClient.from_ store c address).1.getD
          (HeapClient.from_ store c address).2.treeRef [] =
        store.getD c.treeRef [] ++
          [{ operation := "from",
             args := some [("address", .str address)] }] ∧
      (HeapClient.from_ store c address).2.treeRef ≠ c.treeRef) ∧
    ((HeapClient.withExec store c args opts).1.take store.length = store ∧
      (HeapClient.withExec store c args opts).1.getD
          (HeapClient.withExec store c args opts).2.treeRef [] =
        store.getD c.treeRef [] ++
          [{ operation := "withExec",
             args := some (("args", .list (args.map .str)) :: opts) }] ∧
      (HeapClient.withExec store c args opts).2.treeRef ≠ c.treeRef) ∧
    ((HeapClient.withWorkdir store c path).1.take store.length = store ∧
      (HeapClient.withWorkdir store c path).1.getD
          (HeapClient.withWorkdir store c path).2.treeRef [] =
        store.getD c.treeRef [] ++
          [{ operation := "withWorkdir",
             args := some [("path", .str path)] }] ∧
      (HeapClient.withWorkdir store c path).2.treeRef ≠ c.treeRef) :=
  ⟨spreadPush_frame store c.treeRef _ h,
   spreadPush_frame store c.treeRef _ h,
   spreadPush_frame store c.treeRef _ h⟩

/-- Witness for C1 at a concrete heap: one store cell holding the empty
root tree. -/
theorem C1_deferred_append_frame_witness :
    (0 : Nat) < ([[]] : Store).length ∧
    (((HeapClient.from_ [[]] ⟨0, "127.0.0.1:8080", "tok"⟩ "alpine").1.take
          ([[]] : Store).length = [[]] ∧
      (HeapClient.from_ [[]] ⟨0, "127.0.0.1:8080", "tok"⟩ "alpine").1.getD
          (HeapClient.from_ [[]] ⟨0, "127.0.0.1:8080", "tok"⟩
            "alpine").2.treeRef [] =
        ([[]] : Store).getD 0 [] ++
          [{ operation := "from",
             args := some [("address", .str "alpine")] }] ∧
      (HeapClient.from_ [[]] ⟨0, "127.0.0.1:8080", "tok"⟩
          "alpine").2.treeRef ≠ 0) ∧
    ((HeapClient.withExec [[]] ⟨0, "127.0.0.1:8080", "tok"⟩ ["sh"]
          []).1.take ([[]] : Store).length = [[]] ∧
      (HeapClient.withExec [[]] ⟨0, "127.0.0.1:8080", "tok"⟩ ["sh"]
          []).1.getD
          (HeapClient.withExec [[]] ⟨0, "127.0.0.1:8080", "tok"⟩ ["sh"]
            []).2.treeRef [] =
        ([[]] : Store).getD 0 [] ++
          [{ operation := "withExec",
             args := some [("args", .list (["sh"].map .str))] }] ∧
      (HeapClient.withExec [[]] ⟨0, "127.0.0.1:8080", "tok"⟩ ["sh"]
          []).2.treeRef ≠ 0) ∧
    ((HeapClient.withWorkdir [[]] ⟨0, "127.0.0.1:8080", "tok"⟩
          "/app").1.take ([[]] : Store).length = [[]] ∧
      (HeapClient.withWorkdir [[]] ⟨0, "127.0.0.1:8080", "tok"⟩
          "/app").1.getD
          (HeapClient.withWorkdir [[]] ⟨0, "127.0.0.1:8080", "tok"⟩
            "/app").2.treeRef [] =
        ([[]] : Store).getD 0 [] ++
          [{ operation := "withWorkdir",
             args := some [("path", .str "/app")] }] ∧
      (HeapClient.withWorkdir [[]] ⟨0, "127.0.0.1:8080", "tok"⟩
          "/app").2.treeRef ≠ 0)) :=
  ⟨by decide,
   C1_deferred_append_frame [[]] ⟨0, "127.0.0.1:8080", "tok"⟩ "alpine"
     "/app" ["sh"] [] (by decide)⟩

/-- C8: forking one parent A into `B = A.withExec(...)` and
`C = A.withWorkdir(...)` (heap level, C created after B): B's and C's
trees agree on the common prefix of A's length, differ exactly in the
one node from the divergence point onward, creating C leaves B's tree
and A's tree intact, and A's cell is never written. -/
theorem C8_fork_branches (store : Store) (c : HeapClient)
    (args : List String) (opts : List (String × Val)) (path : String)
    (h : c.treeRef < store.length) :
    ((HeapClient.withWorkdir (HeapClient.withExec store c args opts).1 c
        path).1.getD (HeapClient.withExec store c args opts).2.treeRef [] =
      store.getD c.treeRef [] ++
        [{ operation := "withExec",
           args := some (("args", .list (args.map .str)) :: opts) }]) ∧
    ((HeapClient.withWorkdir (HeapClient.withExec store c args opts).1 c
        path).1.getD
        (HeapClient.withWorkdir (HeapClient.withExec store c args opts).1 c
          path).2.treeRef [] =
      store.getD c.treeRef [] ++
        [{ operation := "withWorkdir",
           args := some [("path", .str path)] }]) ∧
    (((HeapClient.withWorkdir (HeapClient.withExec store c args opts).1 c
        path).1.getD (HeapClient.withExec store c args opts).2.treeRef
        []).take (store.getD c.treeRef []).length =
      ((HeapClient.withWorkdir (HeapClient.withExec store c args opts).1 c
        path).1.getD
        (HeapClient.withWorkdir (HeapClient.withExec store c args opts).1 c
          path).2.treeRef []).take (store.getD c.treeRef []).length) ∧
    (((HeapClient.withWorkdir (HeapClient.withExec store c args opts).1 c
        path).1.getD (HeapClient.withExec store c args opts).2.treeRef
        []).drop (store.getD c.treeRef []).length =
      [{ operation := "withExec",
         args := some (("args", .list (args.map .str)) :: opts) }]) ∧
    (((HeapClient.withWorkdir (HeapClient.withExec store c args opts).1 c
        path).1.getD
        (HeapClient.withWorkdir (HeapClient.withExec store c args opts).1 c
          path).2.treeRef []).drop (store.getD c.treeRef []).length =
      [{ operation := "withWorkdir",
         args := some [("path", .str path)] }]) ∧
    ((HeapClient.withWorkdir (HeapClient.withExec store c args opts).1 c
        path).1.getD c.treeRef [] = store.getD c.treeRef []) := by
  have hs1 : (HeapClient.withExec store c args opts).1 =
      (spreadPush store c.treeRef
        { operation := "withExec",
          args := some (("args", .list (args.map .str)) :: opts) }).1 := rfl
  have hlen1 : (HeapClient.withExec store c args opts).1.length =
      store.length + 1 := by
    rw [hs1]; simp [spreadPush]
  have hc1 : c.treeRef < (HeapClient.withExec store c args opts).1.length :=
    hlen1 ▸ Nat.lt_succ_of_lt h
  have hbref : (HeapClient.withExec store c args opts).2.treeRef =
      store.length := rfl
  have hblt : (HeapClient.withExec store c args opts).2.treeRef <
      (HeapClient.withExec store c args opts).1.length := by
    rw [hbref, hlen1]; exact Nat.lt_succ_self _
  -- the old cells of the second store
  have hold : ∀ i, i < (HeapClient.withExec store c args opts).1.length →
      (HeapClient.withWorkdir (HeapClient.withExec store c args opts).1 c
        path).1.getD i [] =
      (HeapClient.withExec store c args opts).1.getD i [] := by
    intro i hi
    exact spreadPush_getD_old _ c.treeRef _ i hi
  -- B's tree in the first store
  have hB1 : (HeapClient.withExec store c args opts).1.getD
      (HeapClient.withExec store c args opts).2.treeRef [] =
      store.getD c.treeRef [] ++
        [{ operation := "withExec",
           args := some (("args", .list (args.map .str)) :: opts) }] :=
    (spreadPush_frame store c.treeRef _ h).2.1
  -- B's tree survives creating C
  have hB : (HeapClient.withWorkdir (HeapClient.withExec store c args
      opts).1 c path).1.getD
      (HeapClient.withExec store c args opts).2.treeRef [] =
      store.getD c.treeRef [] ++
        [{ operation := "withExec",
           args := some (("args", .list (args.map .str)) :: opts) }] := by
    rw [hold _ hblt]; exact hB1
  -- A's tree in the first store
  have hA1 : (HeapClient.withExec store c args opts).1.getD c.treeRef [] =
      store.getD c.treeRef [] :=
    spreadPush_getD_old store c.treeRef _ c.treeRef h
  -- C's tree
  have hC : (HeapClient.withWorkdir (HeapClient.withExec store c args
      opts).1 c path).1.getD
      (HeapClient.withWorkdir (HeapClient.withExec store c args opts).1 c
        path).2.treeRef [] =
      store.getD c.treeRef [] ++
        [{ operation := "withWorkdir",
           args := some [("path", .str path)] }] := by
    have := (spreadPush_frame (HeapClient.withExec store c args opts).1
      c.treeRef
      { operation := "withWorkdir", args := some [("path", .str path)] }
      hc1).2.1
    rw [hA1] at this
    exact this
  -- A's tree survives both
  have hA : (HeapClient.withWorkdir (HeapClient.withExec store c args
      opts).1 c path).1.getD c.treeRef [] = store.getD c.treeRef [] := by
    rw [hold _ hc1]; exact hA1
  refine ⟨hB, hC, ?_, ?_, ?_, hA⟩
  · rw [hB, hC, List.take_left, List.take_left]
  · rw [hB, List.drop_left]
  · rw [hC, List.drop_left]

/-- Witness for C8 at a concrete heap: one store cell holding the empty
root tree. -/
theorem C8_fork_branches_witness :
    (0 : Nat) < ([[]] : Store).length ∧
    ((HeapClient.withWorkdir
        (HeapClient.withExec [[]] ⟨0, "h", "t"⟩ ["sh"] []).1
        ⟨0, "h", "t"⟩ "/app").1.getD
        (HeapClient.withExec [[]] ⟨0, "h", "t"⟩ ["sh"] []).2.treeRef [] =
      ([[]] : Store).getD 0 [] ++
        [{ operation := "withExec",
           args := some (("args", .list (["sh"].map .str)) :: []) }]) := by
  refine ⟨by decide, ?_⟩
  exact (C8_fork_branches [[]] ⟨0, "h", "t"⟩ ["sh"] [] "/app" (by decide)).1

/-- C4: constructing an operation node with an empty or undefined
operation name fails synchronously with `InvalidOperation` at
construction time and leaves the wire-request trace untouched (it
never causes a network request); for every non-empty operation name,
construction succeeds without error and pushes exactly one node onto a
copy of the parent tree, again without touching the trace. -/
theorem C4_invalid_operation_fails_fast (tree : List QueryTree)
    (a : Option (List (String × Val))) (trace : Trace) :
    append tree none a trace = (.error .invalidOperation, trace) ∧
    append tree (some "") a trace = (.error .invalidOperation, trace) ∧
    ∀ op : String, op ≠ "" →
      append tree (some op) a trace =
        (.ok (tree ++ [{ operation := op, args := a }]), trace) := by
  refine ⟨rfl, rfl, ?_⟩
  intro op hop
  simp [append, hop]

/-- Witness for C4 at a concrete non-empty operation name. -/
theorem C4_invalid_operation_fails_fast_witness :
    ("from" : String) ≠ "" ∧
    append [] (some "from") none [] =
      (.ok [{ operation := "from", args := none }], []) :=
  ⟨by decide,
   (C4_invalid_operation_fails_fast [] none []).2.2 "from" (by decide)⟩

/-- C5 counterexample: `"localhost.evil.com"` is neither the host
`localhost` nor a dotted-quad IPv4 literal, yet `startsWith("localhost")`
makes the constructor pick `http`, so the claimed "https for every
other host" fails at this input. -/
theorem C5_counterexample :
    ("localhost.evil.com" : String) ≠ "localhost" ∧
    isIPv4Literal "localhost.evil.com" = false ∧
    schemeFor "localhost.evil.com" = "http" ∧
    (mkBaseClient none (some "localhost.evil.com") none none).client.url =
      "http://localhost.evil.com/query" := by
  refine ⟨by decide, by decide, by decide, ?_⟩
  rfl

/-- C5 amended: the endpoint scheme is `http` exactly when the host
*starts with* the string `localhost`, or the part of the host before
the first colon *contains a substring* consisting of four runs of one
to three decimal digits separated by dots (the unanchored regex
`(?:[0-9]{1,3}\.){3}[0-9]{1,3}`); it is `https` exactly otherwise. -/
theorem C5_amended_scheme_characterization (host : String) :
    (schemeFor host = "http" ↔
      (strStartsWith host.toList "localhost".toList = true ∨
        ContainsQuad (beforeColon host))) ∧
    (schemeFor host = "https" ↔
      ¬(strStartsWith host.toList "localhost".toList = true ∨
        ContainsQuad (beforeColon host))) := by
  have hchar : (strStartsWith host.toList "localhost".toList ||
      quadSearch (beforeColon host)) = true ↔
      (strStartsWith host.toList "localhost".toList = true ∨
        ContainsQuad (beforeColon host)) := by
    rw [Bool.or_eq_true, quadSearch_iff]
  by_cases hb : (strStartsWith host.toList "localhost".toList ||
      quadSearch (beforeColon host)) = true
  · simp only [schemeFor, if_pos hb]
    exact ⟨iff_of_true trivial (hchar.mp hb),
      iff_of_false (by decide) (fun hn => hn (hchar.mp hb))⟩
  · simp only [schemeFor, if_neg hb]
    exact ⟨iff_of_false (by decide) (fun hx => hb (hchar.mpr hx)),
      iff_of_true trivial (fun hx => hb (hchar.mpr hx))⟩

/-- `x || ""` on a provided string is the string itself. -/
theorem jsOrStr_some_empty (s : String) : jsOrStr (some s) "" = s := by
  by_cases hs : s = ""
  · simp [jsOrStr, hs]
  · simp [jsOrStr, hs]

/-- The root `Container` as built by `new Client()` with no
configuration: default host, empty token, no ambient session. -/
def emptyContainer : Container :=
  { base := mkBaseClient none none none none }

/-- C6 counterexample: a client constructed while the
`FLUENTCI_SESSION_ID` environment variable is *absent* still attaches
the `X-FluentCI-Session-ID` correlation header (with the empty string
as its value), contradicting "the correlation header is attached only
when that environment variable is present". -/
theorem C6_counterexample :
    ("X-FluentCI-Session-ID", "") ∈
      (mkBaseClient none none none none).client.headers := by
  decide

/-- C6 amended: the transport is configured with
`Authorization: "Basic " + btoa(sessionToken + ":")` for every provided
session token; when `FLUENTCI_SESSION_ID` is present its value is
carried simultaneously as the `X-FluentCI-Session-ID` header and as the
`?id=` query parameter of the endpoint URL; the correlation header is
attached unconditionally, carrying the variable's value when present
and the empty string when absent (the `?id=` parameter alone is only
present when the variable is). -/
theorem C6_amended_transport_config (qt : Option (List QueryTree))
    (host : Option String) (token v : String) :
    (mkBaseClient qt host (some token) (some v)).client.headers =
      [("Authorization", "Basic " ++ btoa (token ++ ":")),
       ("X-FluentCI-Session-ID", v)] ∧
    (mkBaseClient qt host (some token) (some v)).client.url =
      schemeFor (jsOrStr host "127.0.0.1:8080") ++ "://" ++
        jsOrStr host "127.0.0.1:8080" ++ "/query?id=" ++ v ∧
    (mkBaseClient qt host (some token) none).client.headers =
      [("Authorization", "Basic " ++ btoa (token ++ ":")),
       ("X-FluentCI-Session-ID", "")] ∧
    (mkBaseClient qt host (some token) none).client.url =
      schemeFor (jsOrStr host "127.0.0.1:8080") ++ "://" ++
        jsOrStr host "127.0.0.1:8080" ++ "/query" :=
  ⟨rfl, rfl, rfl, rfl⟩

/-- C9: every deferred method (`from`, `directory`, `file`, `withExec`,
`withWorkdir`) propagates the connection context unchanged — the
derived object's `clientHost` and `sessionToken` equal the parent's —
the derived tree is the parent's tree plus one node built from the
method arguments alone, and the connection context is never stored in
the tree: two parents with equal trees but arbitrary contexts derive
equal trees.  (Every node, by the `QueryTree` record type, consists
only of an operation name and an optional args mapping.) -/
theorem C9_context_propagation (c : Container)
    (address dpath fpath wpath : String) (args : List String)
    (opts : List (String × Val)) (env : Option String)
    (hh : c.base.clientHost ≠ "") :
    ((Container.from_ c address env).base.clientHost = c.base.clientHost ∧
      (Container.from_ c address env).base.sessionToken =
        c.base.sessionToken ∧
      (Container.from_ c address env).base._queryTree =
        c.base._queryTree ++
          [{ operation := "from",
             args := some [("address", .str address)] }]) ∧
    ((Container.directory c dpath env).base.clientHost =
        c.base.clientHost ∧
      (Container.directory c dpath env).base.sessionToken =
        c.base.sessionToken ∧
      (Container.directory c dpath env).base._queryTree =
        c.base._queryTree ++
          [{ operation := "directory",
             args := some [("path", .str dpath)] }]) ∧
    ((Container.file c fpath env).base.clientHost = c.base.clientHost ∧
      (Container.file c fpath env).base.sessionToken =
        c.base.sessionToken ∧
      (Container.file c fpath env).base._queryTree =
        c.base._queryTree ++
          [{ operation := "file", args := some [("path", .str fpath)] }]) ∧
    ((Container.withExec c args opts env).base.clientHost =
        c.base.clientHost ∧
      (Container.withExec c args opts env).base.sessionToken =
        c.base.sessionToken ∧
      (Container.withExec c args opts env).base._queryTree =
        c.base._queryTree ++
          [{ operation := "withExec",
             args := some (("args", .list (args.map .str)) :: opts) }]) ∧
    ((Container.withWorkdir c wpath env).base.clientHost =
        c.base.clientHost ∧
      (Container.withWorkdir c wpath env).base.sessionToken =
        c.base.sessionToken ∧
      (Container.withWorkdir c wpath env).base._queryTree =
        c.base._queryTree ++
          [{ operation := "withWorkdir",
             args := some [("path", .str wpath)] }]) ∧
    (∀ (c₂ : Container) (env₂ : Option String),
      c₂.base._queryTree = c.base._queryTree →
        (Container.from_ c₂ address env₂).base._queryTree =
          (Container.from_ c address env).base._queryTree ∧
        (Container.directory c₂ dpath env₂).base._queryTree =
          (Container.directory c dpath env).base._queryTree ∧
        (Container.file c₂ fpath env₂).base._queryTree =
          (Container.file c fpath env).base._queryTree ∧
        (Container.withExec c₂ args opts env₂).base._queryTree =
          (Container.withExec c args opts env).base._queryTree ∧
        (Container.withWorkdir c₂ wpath env₂).base._queryTree =
          (Container.withWorkdir c wpath env).base._queryTree) := by
  have hHost : ∀ (qt : List QueryTree) (env' : Option String),
      (mkBaseClient (some qt) (some c.base.clientHost)
        (some c.base.sessionToken) env').clientHost = c.base.clientHost := by
    intro qt env'
    simp [mkBaseClient, jsOrStr, hh]
  have hTok : ∀ (qt : List QueryTree) (env' : Option String),
      (mkBaseClient (some qt) (some c.base.clientHost)
        (some c.base.sessionToken) env').sessionToken =
        c.base.sessionToken := by
    intro qt env'
    exact jsOrStr_some_empty _
  refine ⟨⟨hHost _ _, hTok _ _, rfl⟩, ⟨hHost _ _, hTok _ _, rfl⟩,
    ⟨hHost _ _, hTok _ _, rfl⟩, ⟨hHost _ _, hTok _ _, rfl⟩,
    ⟨hHost _ _, hTok _ _, rfl⟩, ?_⟩
  intro c₂ env₂ htree
  refine ⟨?_, ?_, ?_, ?_, ?_⟩ <;>
    simp [Container.from_, Container.directory, Container.file,
      Container.withExec, Container.withWorkdir, mkBaseClient, htree]

/-- Witness for C9 at the root container (default host, empty token). -/
theorem C9_context_propagation_witness :
    emptyContainer.base.clientHost ≠ "" ∧
    (Container.from_ emptyContainer "alpine" none).base.clientHost =
      emptyContainer.base.clientHost :=
  ⟨by decide,
   (C9_context_propagation emptyContainer "alpine" "/d" "/f" "/w" ["sh"]
     [] none (by decide)).1.1⟩

/-- C2 counterexample: a `Container` constructed with the cached
`_export` field set to `true` short-circuits `export()` entirely — two
invocations issue zero wire requests (the trace stays empty) and the
cached `true` is returned instead of the oracle's answer — refuting
"every invocation sends a fresh request, for every Container however
constructed". -/
theorem C2_counterexample :
    (Container.export_ { emptyContainer with _export := some true }
      "./tarball" [] (fun _ => false)
      (Container.export_ { emptyContainer with _export := some true }
        "./tarball" [] (fun _ => false) []).2).2 = ([] : Trace) ∧
    (Container.export_ { emptyContainer with _export := some true }
      "./tarball" [] (fun _ => false) []).1 = true :=
  ⟨rfl, rfl⟩

/-- C2 amended: for every `Container` whose cached `_export`
(resp. `_publish`) field is not pre-populated with a truthy value, each
invocation of `export` (resp. `publish`) compiles the accumulated tree
plus the effectful node and sends one fresh wire request, and two
invocations in sequence send two identical requests — no caching or
deduplication across invocations. -/
theorem C2_amended_fresh_request_per_call (c : Container)
    (path address : String) (opts popts : List (String × Val))
    (net : List QueryTree → Bool) (netS : List QueryTree → String)
    (tr : Trace) (hE : truthyBool c._export = false)
    (hP : truthyStr c._publish = false) :
    Container.export_ c path opts net tr =
      (net (c.base._queryTree ++
        [{ operation := "export",
           args := some (("path", .str path) :: opts ++
             [("__metadata", exportMetadata)]) }]),
       tr ++ [c.base._queryTree ++
        [{ operation := "export",
           args := some (("path", .str path) :: opts ++
             [("__metadata", exportMetadata)]) }]]) ∧
    (Container.export_ c path opts net
        (Container.export_ c path opts net tr).2).2 =
      tr ++ [c.base._queryTree ++
        [{ operation := "export",
           args := some (("path", .str path) :: opts ++
             [("__metadata", exportMetadata)]) }],
        c.base._queryTree ++
        [{ operation := "export",
           args := some (("path", .str path) :: opts ++
             [("__metadata", exportMetadata)]) }]] ∧
    Container.publish c address popts netS tr =
      (netS (c.base._queryTree ++
        [{ operation := "publish",
           args := some (("address", .str address) :: popts ++
             [("__metadata", exportMetadata)]) }]),
       tr ++ [c.base._queryTree ++
        [{ operation := "publish",
           args := some (("address", .str address) :: popts ++
             [("__metadata", exportMetadata)]) }]]) ∧
    (Container.publish c address popts netS
        (Container.publish c address popts netS tr).2).2 =
      tr ++ [c.base._queryTree ++
        [{ operation := "publish",
           args := some (("address", .str address) :: popts ++
             [("__metadata", exportMetadata)]) }],
        c.base._queryTree ++
        [{ operation := "publish",
           args := some (("address", .str address) :: popts ++
             [("__metadata", exportMetadata)]) }]] := by
  refine ⟨?_, ?_, ?_, ?_⟩ <;>
    simp [Container.export_, Container.publish, computeQuery, hE, hP]

/-- Witness for C2 amended at the root container: two `export` calls
append two requests to an empty trace. -/
theorem C2_amended_fresh_request_per_call_witness :
    truthyBool emptyContainer._export = false ∧
    truthyStr emptyContainer._publish = false ∧
    (Container.export_ emptyContainer "./tarball" [] (fun _ => true)
        (Container.export_ emptyContainer "./tarball" [] (fun _ => true)
          []).2).2 =
      ([] : Trace) ++ [emptyContainer.base._queryTree ++
        [{ operation := "export",
           args := some (("path", .str "./tarball") :: [] ++
             [("__metadata", exportMetadata)]) }],
        emptyContainer.base._queryTree ++
        [{ operation := "export",
           args := some (("path", .str "./tarball") :: [] ++
             [("__metadata", exportMetadata)]) }]] :=
  ⟨rfl, rfl,
   (C2_amended_fresh_request_per_call emptyContainer "./tarball" "reg" []
     [] (fun _ => true) (fun _ => "") [] rfl rfl).2.1⟩

/-- C7 counterexample: a `Container` pre-populated with `_id` set to the
empty string (a set, but falsy, value) does *not* return the cached
value: the accessor issues a network resolution (one request appears on
the trace) and returns the oracle's answer. -/
theorem C7_counterexample :
    ({ emptyContainer with _id := some "" } : Container)._id = some "" ∧
    (Container.id { emptyContainer with _id := some "" }
      (fun _ => "remote-id") []).2 =
        [[{ operation := "id", args := none }]] ∧
    ([[{ operation := "id", args := none }]] : Trace) ≠ [] ∧
    (Container.id { emptyContainer with _id := some "" }
      (fun _ => "remote-id") []).1 = "remote-id" :=
  ⟨rfl, rfl, by simp, rfl⟩

/-- C7 amended: a terminal accessor whose backing field was
pre-populated with a *truthy* value (non-empty string) returns the
cached value with no network round trip; when the field is absent — or
holds a falsy value — the accessor resolves over the network by
appending the accessor's operation node to the tree.  Shown for
`Container.id` and `EnvVariable.name`. -/
theorem C7_amended_cached_accessor (c : Container) (e : EnvVariable)
    (net netE : List QueryTree → String) (tr : Trace) :
    (truthyStr c._id = true → Container.id c net tr = (c._id.getD "", tr)) ∧
    (truthyStr c._id = false →
      Container.id c net tr =
        (net (c.base._queryTree ++ [{ operation := "id" }]),
         tr ++ [c.base._queryTree ++ [{ operation := "id" }]])) ∧
    (truthyStr e._name = true →
      EnvVariable.name e netE tr = (e._name.getD "", tr)) ∧
    (truthyStr e._name = false →
      EnvVariable.name e netE tr =
        (netE (e.base._queryTree ++ [{ operation := "name" }]),
         tr ++ [e.base._queryTree ++ [{ operation := "name" }]])) := by
  refine ⟨?_, ?_, ?_, ?_⟩ <;> intro h <;>
    simp [Container.id, EnvVariable.name, computeQuery, h]

/-- Witness for C7 amended: a truthy cached id is returned with an
untouched trace. -/
theorem C7_amended_cached_accessor_witness :
    truthyStr ({ emptyContainer with _id := some "abc" } : Container)._id =
      true ∧
    Container.id { emptyContainer with _id := some "abc" }
      (fun _ => "remote-id") [] = ("abc", []) :=
  ⟨by decide,
   (C7_amended_cached_accessor { emptyContainer with _id := some "abc" }
     { base := emptyContainer.base } (fun _ => "remote-id")
     (fun _ => "remote-id") []).1 (by decide)⟩

/-- C10: the cache shortcut is a truthiness test, so a cached *falsy*
value — `File.size` pre-populated with `0`, `EnvVariable.value` with
the empty string, `Container.export` with `false` — is ignored: the
call behaves exactly as if no cache were present, issuing the network
resolution and returning the oracle's value. -/
theorem C10_falsy_cache_resolves (b : BaseClientState) (path : String)
    (opts : List (String × Val)) (netI : List QueryTree → Int)
    (netS : List QueryTree → String) (netB : List QueryTree → Bool)
    (tr : Trace) :
    File.size { base := b, _size := some 0 } netI tr =
      File.size { base := b } netI tr ∧
    File.size { base := b, _size := some 0 } netI tr =
      (netI (b._queryTree ++ [{ operation := "size" }]),
       tr ++ [b._queryTree ++ [{ operation := "size" }]]) ∧
    EnvVariable.value { base := b, _value := some "" } netS tr =
      EnvVariable.value { base := b } netS tr ∧
    EnvVariable.value { base := b, _value := some "" } netS tr =
      (netS (b._queryTree ++ [{ operation := "value" }]),
       tr ++ [b._queryTree ++ [{ operation := "value" }]]) ∧
    Container.export_ { base := b, _export := some false } path opts netB
        tr =
      Container.export_ { base := b } path opts netB tr ∧
    Container.export_ { base := b, _export := some false } path opts netB
        tr =
      (netB (b._queryTree ++
        [{ operation := "export",
           args := some (("path", .str path) :: opts ++
             [("__metadata", exportMetadata)]) }]),
       tr ++ [b._queryTree ++
        [{ operation := "export",
           args := some (("path", .str path) :: opts ++
             [("__metadata", exportMetadata)]) }]]) := by
  refine ⟨?_, ?_, ?_, ?_, ?_, ?_⟩ <;>
    simp [File.size, EnvVariable.value, Container.export_, truthyNum,
      truthyStr, truthyBool, computeQuery]

/-- C3 counterexample: lifting the response of `envVariables` on a
parent whose tree holds one `from` node yields objects whose query
tree *equals* the parent's one-node tree — not the claimed parent tree
plus the array-field node plus the sub-selection node (length 3). -/
theorem C3_counterexample :
    ((Container.envVariables
        { base := mkBaseClient
            (some [{ operation := "from",
                     args := some [("address", .str "alpine")] }])
            none none none }
        (fun _ => [("PATH", "/bin")]) none []).1.map
      fun e => e.base._queryTree) =
      [[{ operation := "from", args := some [("address", .str "alpine")] }]] ∧
    ((Container.envVariables
        { base := mkBaseClient
            (some [{ operation := "from",
                     args := some [("address", .str "alpine")] }])
            none none none }
        (fun _ => [("PATH", "/bin")]) none []).1.map
      fun e => e.base._queryTree.length) = [1] ∧
    (1 : Nat) ≠ 1 + 2 :=
  ⟨rfl, rfl, by decide⟩

/-- C3 amended: the wire request sent by `envVariables` /
`exposedPorts` extends the parent's tree with the array-field node and
the sub-selection node, and each lifted object carries its pre-fetched
scalar fields — but the lifted object's query tree equals the parent's
tree exactly (the two selection nodes appear only in the compiled
request, never on the lifted object). -/
theorem C3_amended_lifted_objects (c : Container)
    (net : List QueryTree → List (String × String))
    (netP : List QueryTree → List (String × Int × String))
    (env : Option String) (tr : Trace) :
    (Container.envVariables c net env tr).2 =
      tr ++ [c.base._queryTree ++
        [{ operation := "envVariables" }, { operation := "name value" }]] ∧
    ((Container.envVariables c net env tr).1.map
        fun e => e.base._queryTree) =
      (net (c.base._queryTree ++
        [{ operation := "envVariables" },
         { operation := "name value" }])).map
        (fun _ => c.base._queryTree) ∧
    ((Container.envVariables c net env tr).1.map
        fun e => (e._name, e._value)) =
      (net (c.base._queryTree ++
        [{ operation := "envVariables" },
         { operation := "name value" }])).map
        (fun r => (some r.1, some r.2)) ∧
    (Container.exposedPorts c netP env tr).2 =
      tr ++ [c.base._queryTree ++
        [{ operation := "exposedPorts" },
         { operation := "description port protocol" }]] ∧
    ((Container.exposedPorts c netP env tr).1.map
        fun p => p.base._queryTree) =
      (netP (c.base._queryTree ++
        [{ operation := "exposedPorts" },
         { operation := "description port protocol" }])).map
        (fun _ => c.base._queryTree) ∧
    ((Container.exposedPorts c netP env tr).1.map
        fun p => (p._description, p._port, p._protocol)) =
      (netP (c.base._queryTree ++
        [{ operation := "exposedPorts" },
         { operation := "description port protocol" }])).map
        (fun r => (some r.1, some r.2.1, some r.2.2)) := by
  refine ⟨rfl, ?_, ?_, rfl, ?_, ?_⟩ <;>
  · simp only [Container.envVariables, Container.exposedPorts,
      computeQuery]
    rw [List.map_map]
    apply List.map_congr_left
    intro a _
    rfl
